import Mathlib

/-!
# dnstap-bgp: the wiring in `main.go`

A shallow embedding of the closures that `main` builds (`expireCb`, `ipDBPut`,
`addEntry`, `addHostCb`), of the TTL selection, of the startup restore loop and
of the startup sequence itself.

`main.go` drives five collaborators whose files are not part of the sources at
hand: the entry cache (`*cache`), the domain tree (`*domainTree`), the durable
store (`*db`), the route controller (`*bgpServer`) and the replication engine
(`*syncer`).  Their state is modelled from the specification as small
executable maps, and every call that `main.go` makes on one of them is also
appended to a call log, so that statements of the form "calls X exactly once"
are statements about that log.

Times are integers (nanoseconds); durations are integers in the `int64` range,
and `Time.Sub` saturates the way Go's `time.Time.Sub` does.  Output written with
`log.Printf` is not part of the state.
-/

namespace DnstapBgp

/-! ## Data model -/

/-- The entry type `cacheEntry` as `main.go` builds it: `IP`, `Domain`, `TS`. -/
structure cacheEntry where
  IP : String
  Domain : String
  TS : Int
  deriving DecidableEq, Repr

/-- Smallest value of Go's `time.Duration` (an `int64` of nanoseconds). -/
def minDuration : Int := -9223372036854775808

/-- Largest value of Go's `time.Duration`. -/
def maxDuration : Int := 9223372036854775807

/-- Go's `time.Hour` in nanoseconds. -/
def Hour : Int := 3600000000000

/-- Go's `t.Sub(u)`: the difference `t - u`, saturated to the `Duration` range. -/
def Time.Sub (t u : Int) : Int :=
  if t - u < minDuration then minDuration
  else if maxDuration < t - u then maxDuration
  else t - u

/-- Modelled from the spec: the Domain Matcher (`*domainTree`, its file is not
among the sources).  `main.go` only ever asks it `has(domain)`, so the active
tree is represented by that read-only query. -/
structure domainTree where
  has : String → Bool

/-- Modelled from the spec: `match(D)` of section 4.1, a query domain matches
iff it equals a watched domain `W` or ends with `"." ++ W`.  Used to build
concrete trees. -/
def domainTree.ofList (ws : List String) : domainTree :=
  { has := fun d => ws.any (fun w => d == w || (("." ++ w).data).isSuffixOf d.data) }

/-- Modelled from the spec: the Entry Cache (`*cache`, its file is not among
the sources): at most one entry per IP, kept here as an association list keyed
by `IP`, together with the TTL it was created with. -/
structure cache where
  m : List cacheEntry
  ttl : Int
  deriving DecidableEq, Repr

/-- Modelled from the spec: `newCache(ttl, expireCb)`, an empty cache. -/
def newCache (ttl : Int) : cache := { m := [], ttl := ttl }

/-- The entry cached under `ip`, if any. -/
def cache.get (c : cache) (ip : String) : Option cacheEntry :=
  c.m.find? (fun x => x.IP == ip)

/-- Whether `ip` is present in the cache (a pure lookup). -/
def cache.present (c : cache) (ip : String) : Bool :=
  (c.get ip).isSome

/-- Modelled from the spec: `ipCache.exists(ip, touch)`.  It reports whether
`ip` is present and, when it is and `touch` is set, refreshes the entry's
`lastSeen` to the current time `now` (section 4.2: local re-observation
extends the TTL window, remote observation of a present IP mutates nothing).
The call receives only the IP and the flag, never the domain or the timestamp
of the observation. -/
def cache.exists (c : cache) (ip : String) (touch : Bool) (now : Int) : Bool × cache :=
  match c.get ip with
  | none => (false, c)
  | some _ =>
    if touch then
      (true, { c with m := c.m.map (fun x => if x.IP == ip then { x with TS := now } else x) })
    else (true, c)

/-- Modelled from the spec: `ipCache.add(e)`, store `e` under `e.IP`, replacing
whatever was there (identity of an entry is its IP). -/
def cache.add (c : cache) (e : cacheEntry) : cache :=
  { c with m := e :: c.m.filter (fun x => x.IP != e.IP) }

/-- Modelled from the spec: the cache's removal of an entry (TTL expiry or
`evict`). -/
def cache.remove (c : cache) (ip : String) : cache :=
  { c with m := c.m.filter (fun x => x.IP != ip) }

/-- Modelled from the spec: the Durable Store (`*db`, its file is not among the
sources), a persistent map from IP to entry. -/
structure db where
  m : List cacheEntry
  deriving DecidableEq, Repr

/-- Modelled from the spec: `put(entry)` of the Durable Store (`ipDB.add`). -/
def db.add (d : db) (e : cacheEntry) : db :=
  { m := e :: d.m.filter (fun x => x.IP != e.IP) }

/-- Modelled from the spec: `delete(ip)` of the Durable Store (`ipDB.del`). -/
def db.del (d : db) (ip : String) : db :=
  { m := d.m.filter (fun x => x.IP != ip) }

/-- Modelled from the spec: `fetchAll()` of the Durable Store. -/
def db.fetchAll (d : db) : Except String (List cacheEntry) := .ok d.m

/-- The entry stored under `ip`, if any. -/
def db.get (d : db) (ip : String) : Option cacheEntry :=
  d.m.find? (fun x => x.IP == ip)

/-- Modelled from the spec: the Route Controller (`*bgpServer`, its file is not
among the sources), the set of host routes currently announced. -/
structure bgpServer where
  routes : List String
  deriving DecidableEq, Repr

/-- Modelled from the spec: `announce(ip)`, idempotent. -/
def bgpServer.addHost (b : bgpServer) (ip : String) : bgpServer :=
  if ip ∈ b.routes then b else { routes := ip :: b.routes }

/-- Modelled from the spec: `withdraw(ip)`, idempotent. -/
def bgpServer.delHost (b : bgpServer) (ip : String) : bgpServer :=
  { routes := b.routes.filter (fun r => r != ip) }

/-- Modelled from the spec: the Replication Engine (`*syncer`, its file is not
among the sources), reduced to the entries handed to `broadcast`, oldest
first. -/
structure syncer where
  sent : List cacheEntry
  deriving DecidableEq, Repr

/-- Modelled from the spec: `syncer.broadcast(e)`. -/
def syncer.broadcast (s : syncer) (e : cacheEntry) : syncer :=
  { sent := s.sent ++ [e] }

/-- One call made by `main.go` on a collaborator. -/
inductive Call where
  | cacheExists (ip : String) (touch : Bool)
  | cacheAdd (e : cacheEntry)
  | bgpAddHost (ip : String)
  | bgpDelHost (ip : String)
  | dbAdd (e : cacheEntry)
  | dbDel (ip : String)
  | broadcast (e : cacheEntry)
  deriving DecidableEq, Repr

/-- The variables of `main` that its closures capture, once `newBgp` has
returned: `dTree`, `ipCache`, `bgp`, `ipDB` (nil when no cache file is
configured), `syncer` (nil when replication is off), and the log of the calls
made so far. -/
structure World where
  dTree : domainTree
  ipCache : cache
  bgp : bgpServer
  ipDB : Option db
  syncer : Option syncer
  calls : List Call

/-! ## The closures of `main` -/

/-- The closure `expireCb` (main.go 75-82). -/
def expireCb (w : World) (e : cacheEntry) : World :=
  let w1 := { w with bgp := w.bgp.delHost e.IP, calls := w.calls ++ [Call.bgpDelHost e.IP] }
  match w1.ipDB with
  | some d => { w1 with ipDB := some (d.del e.IP), calls := w1.calls ++ [Call.dbDel e.IP] }
  | none => w1

/-- The closure `ipDBPut` (main.go 130-138); an error of `ipDB.add` is only
logged. -/
def ipDBPut (w : World) (e : cacheEntry) : World :=
  match w.ipDB with
  | none => w
  | some d => { w with ipDB := some (d.add e), calls := w.calls ++ [Call.dbAdd e] }

/-- The closure `addEntry` (main.go 140-155).  `tnow` is the clock reading the
cache takes if it touches the entry. -/
def addEntry (w : World) (e : cacheEntry) (touch : Bool) (tnow : Int) : Bool × World :=
  let r := w.ipCache.exists e.IP touch tnow
  let w1 := { w with ipCache := r.2, calls := w.calls ++ [Call.cacheExists e.IP touch] }
  if r.1 then
    if touch then (false, ipDBPut w1 e) else (false, w1)
  else
    let w2 := { w1 with bgp := w1.bgp.addHost e.IP, calls := w1.calls ++ [Call.bgpAddHost e.IP] }
    let w3 := { w2 with ipCache := w2.ipCache.add e, calls := w2.calls ++ [Call.cacheAdd e] }
    (true, ipDBPut w3 e)

/-- The closure `addHostCb` (main.go 167-185).  `now` is the `time.Now()` of
line 175, `tnow` the later clock reading inside the cache; an error of
`syncer.broadcast` is only logged. -/
def addHostCb (w : World) (ip domain : String) (now tnow : Int) : World :=
  if !w.dTree.has domain then w
  else
    let e : cacheEntry := { IP := ip, Domain := domain, TS := now }
    let w1 := (addEntry w e true tnow).2
    match w1.syncer with
    | some s => { w1 with syncer := some (s.broadcast e), calls := w1.calls ++ [Call.broadcast e] }
    | none => w1

/-- Modelled from the spec: the cache's TTL eviction (its file is not among the
sources), which removes the entry from the cache and runs the expiry callback
for it. -/
def expire (w : World) (e : cacheEntry) : World :=
  expireCb { w with ipCache := w.ipCache.remove e.IP } e

/-! ## Startup -/

/-- The replication section of the configuration; `main.go` reads its `Listen`
and `Peers` fields. -/
structure syncerCfg where
  Listen : String
  Peers : List String
  deriving DecidableEq, Repr

/-- The DNSTap section of the configuration; `main.go` reads its `Socket`
field. -/
structure dnstapCfg where
  Socket : String
  deriving DecidableEq, Repr

/-- The BGP section of the configuration; `main.go` passes it on unread. -/
structure bgpCfg where
  deriving DecidableEq, Repr

/-- The decoded configuration `cfgRoot` (main.go 16-25).  The three sections
are pointers: a section missing from the file leaves its pointer nil. -/
structure cfgRoot where
  Domains : String
  Cache : String
  Namespace : String
  TTL : String
  DNSTap : Option dnstapCfg
  BGP : Option bgpCfg
  Syncer : Option syncerCfg
  deriving DecidableEq, Repr

/-- The ways the startup sequence of `main` stops the process: one constructor
per `log.Fatal` site, and `nilDeref` for the runtime panic of a field access
through a nil pointer. -/
inductive Abort where
  | noDomains
  | namespaceNotFound
  | namespaceSwitch
  | domainList
  | initDB
  | loadDB
  | initBGP
  | initSyncer
  | initDNSTap
  | nilDeref
  deriving DecidableEq, Repr

/-- What the startup sequence obtains from outside the program: the result of
`time.ParseDuration` (the duration and the error, `none` for nil), of the two
`netns` calls, of `dTree.loadFile`, of `newDB`, of `time.Now()` at line 104,
and of the constructors `newBgp`, `newSyncer` and `newDnstapServer`. -/
structure Env where
  ParseDuration : String → Int × Option String
  netnsGetFromName : String → Bool
  netnsSet : String → Bool
  loadFile : String → Except String domainTree
  newDB : String → Except String db
  now : Int
  newBgp : Option bgpCfg → Except String bgpServer
  newSyncer : syncerCfg → Except String syncer
  newDnstapServer : Option dnstapCfg → Except String Unit

/-- TTL selection (main.go 55-60): 24 hours unless `cfg.TTL` is set, in which
case `ttl` is assigned whatever `time.ParseDuration` returns; its error is only
logged. -/
def selectTTL (env : Env) (cfg : cfgRoot) : Int :=
  if cfg.TTL ≠ "" then (env.ParseDuration cfg.TTL).1 else 24 * Hour

/-- The loop variables of the startup restore (main.go 105-121): the cache,
the store, the counters `i` (loaded), `j` (expired), `k` (vanished), and the
calls made. -/
structure RestoreState where
  ipCache : cache
  ipDB : db
  i : Nat
  j : Nat
  k : Nat
  calls : List Call
  deriving DecidableEq, Repr

/-- One iteration of the restore loop (main.go 106-121). -/
def restoreStep (dTree : domainTree) (ttl now : Int) (s : RestoreState) (e : cacheEntry) :
    RestoreState :=
  if Time.Sub now e.TS ≥ ttl then
    { s with ipDB := s.ipDB.del e.IP, j := s.j + 1, calls := s.calls ++ [Call.dbDel e.IP] }
  else if !dTree.has e.Domain then
    { s with ipDB := s.ipDB.del e.IP, k := s.k + 1, calls := s.calls ++ [Call.dbDel e.IP] }
  else
    { s with ipCache := s.ipCache.add e, i := s.i + 1, calls := s.calls ++ [Call.cacheAdd e] }

/-- The restore loop `for _, e := range es` (main.go 104-121). -/
def restore (dTree : domainTree) (ttl now : Int) (ipCache : cache) (ipDB : db)
    (es : List cacheEntry) : RestoreState :=
  es.foldl (restoreStep dTree ttl now)
    { ipCache := ipCache, ipDB := ipDB, i := 0, j := 0, k := 0, calls := [] }

/-- Namespace switch (main.go 62-73). -/
def switchNamespace (env : Env) (cfg : cfgRoot) : Except Abort Unit :=
  if cfg.Namespace ≠ "" then
    if !env.netnsGetFromName cfg.Namespace then .error Abort.namespaceNotFound
    else if !env.netnsSet cfg.Namespace then .error Abort.namespaceSwitch
    else .ok ()
  else .ok ()

/-- Opening the store and restoring from it (main.go 94-124): the cache, the
store handle `ipDB` and the calls made. -/
def loadCache (env : Env) (cfg : cfgRoot) (dTree : domainTree) (ttl : Int) (ipCache : cache) :
    Except Abort (cache × Option db × List Call) :=
  if cfg.Cache ≠ "" then
    match env.newDB cfg.Cache with
    | .error _ => .error Abort.initDB
    | .ok d =>
      match d.fetchAll with
      | .error _ => .error Abort.loadDB
      | .ok es =>
        let s := restore dTree ttl env.now ipCache d es
        .ok (s.ipCache, some s.ipDB, s.calls)
  else .ok (ipCache, none, [])

/-- Creation of the syncer (main.go 157-165).  The condition reads
`cfg.Syncer.Listen` and `cfg.Syncer.Peers` through the pointer `cfg.Syncer`
without a nil test. -/
def initSyncer (env : Env) (cfg : cfgRoot) : Except Abort (Option syncer) :=
  match cfg.Syncer with
  | none => .error Abort.nilDeref
  | some sc =>
    if sc.Listen ≠ "" || sc.Peers.length > 0 then
      match env.newSyncer sc with
      | .error _ => .error Abort.initSyncer
      | .ok s => .ok (some s)
    else .ok none

/-- Creation of the DNSTap server (main.go 191-195); line 195 reads
`cfg.DNSTap.Socket`. -/
def initDNSTap (env : Env) (cfg : cfgRoot) : Except Abort Unit :=
  match env.newDnstapServer cfg.DNSTap with
  | .error _ => .error Abort.initDNSTap
  | .ok _ =>
    match cfg.DNSTap with
    | none => .error Abort.nilDeref
    | some _ => .ok ()

/-- The startup sequence from line 62 on, for a given `ttl`. -/
def startupFrom (env : Env) (cfg : cfgRoot) (ttl : Int) : Except Abort World :=
  match switchNamespace env cfg with
  | .error a => .error a
  | .ok _ =>
    match env.loadFile cfg.Domains with
    | .error _ => .error Abort.domainList
    | .ok dTree =>
      match loadCache env cfg dTree ttl (newCache ttl) with
      | .error a => .error a
      | .ok (ipCache, ipDB, calls) =>
        match env.newBgp cfg.BGP with
        | .error _ => .error Abort.initBGP
        | .ok bgp =>
          match initSyncer env cfg with
          | .error a => .error a
          | .ok syncer =>
            match initDNSTap env cfg with
            | .error a => .error a
            | .ok _ =>
              .ok { dTree := dTree, ipCache := ipCache, bgp := bgp, ipDB := ipDB,
                    syncer := syncer, calls := calls }

/-- The startup sequence of `main` for a decoded configuration (main.go 51-195),
up to the point where the process waits for signals. -/
def startup (env : Env) (cfg : cfgRoot) : Except Abort World :=
  if cfg.Domains = "" then .error Abort.noDomains
  else startupFrom env cfg (selectTTL env cfg)

/-! ## Observables -/

/-- The entries handed to `syncer.broadcast` among a list of calls, in order. -/
def broadcasts (cs : List Call) : List cacheEntry :=
  cs.filterMap (fun c => match c with
    | Call.broadcast e => some e
    | _ => none)

/-- The IPs passed to `bgp.addHost` among a list of calls, in order. -/
def announces (cs : List Call) : List String :=
  cs.filterMap (fun c => match c with
    | Call.bgpAddHost ip => some ip
    | _ => none)

/-- The condition of C6 under which a stored entry is seeded: its age is below
the TTL and its domain is still matched. -/
def fresh (dTree : domainTree) (ttl now : Int) (e : cacheEntry) : Bool :=
  decide (Time.Sub now e.TS < ttl) && dTree.has e.Domain

/-- The invariant of section 3 of the spec: an IP is in the cache iff its host
route is announced. -/
def Tracks (w : World) : Prop :=
  ∀ ip : String, w.ipCache.present ip = true ↔ ip ∈ w.bgp.routes

/-! ## Concrete states used to evaluate the definitions -/

/-- A tree watching `example.com` and `bad.example`. -/
def sampleTree : domainTree := domainTree.ofList ["example.com", "bad.example"]

/-- A running instance with one cached entry, a store and a syncer. -/
def sampleWorld : World :=
  { dTree := sampleTree
    ipCache := { m := [{ IP := "1.2.3.4", Domain := "a.example.com", TS := 10 }], ttl := 24 * Hour }
    bgp := { routes := ["1.2.3.4"] }
    ipDB := some { m := [{ IP := "1.2.3.4", Domain := "a.example.com", TS := 10 }] }
    syncer := some { sent := [] }
    calls := [] }

/-- A local re-observation of the cached IP under another watched name. -/
def sampleRefresh : cacheEntry := { IP := "1.2.3.4", Domain := "x.bad.example", TS := 50 }

/-- An observation of an IP that `sampleWorld` does not hold. -/
def sampleFresh : cacheEntry := { IP := "5.6.7.8", Domain := "x.bad.example", TS := 50 }

/-- An environment in which every external step of the startup succeeds: the
store holds one entry written 10ns before `now`, `time.ParseDuration` accepts
`"1h"` only, and the route controller starts without routes. -/
def sampleEnv : Env :=
  { ParseDuration := fun s =>
      if s = "1h" then (Hour, none) else (0, some "time: invalid duration")
    netnsGetFromName := fun _ => true
    netnsSet := fun _ => true
    loadFile := fun _ => .ok sampleTree
    newDB := fun _ => .ok { m := [{ IP := "1.2.3.4", Domain := "x.bad.example", TS := 90 }] }
    now := 100
    newBgp := fun _ => .ok { routes := [] }
    newSyncer := fun _ => .ok { sent := [] }
    newDnstapServer := fun _ => .ok () }

/-- A configuration with a domain list, a cache file, the default TTL, and all
three sections present; replication has neither a listen address nor peers. -/
def sampleCfg : cfgRoot :=
  { Domains := "domains.txt"
    Cache := "cache.db"
    Namespace := ""
    TTL := ""
    DNSTap := some { Socket := "/var/run/dnstap.sock" }
    BGP := some {}
    Syncer := some { Listen := "", Peers := [] } }

/-- The configuration `sampleCfg` with a TTL that does not parse. -/
def badTTLCfg : cfgRoot := { sampleCfg with TTL := "soon" }

/-- The configuration `sampleCfg` written without a syncer section. -/
def noSyncerCfg : cfgRoot := { sampleCfg with Syncer := none }

/-- The state `main` has built when `startup sampleEnv sampleCfg` is done. -/
def sampleStarted : World :=
  { dTree := sampleTree
    ipCache := { m := [{ IP := "1.2.3.4", Domain := "x.bad.example", TS := 90 }], ttl := 24 * Hour }
    bgp := { routes := [] }
    ipDB := some { m := [{ IP := "1.2.3.4", Domain := "x.bad.example", TS := 90 }] }
    syncer := none
    calls := [Call.cacheAdd { IP := "1.2.3.4", Domain := "x.bad.example", TS := 90 }] }

/-! ## Lookup lemmas for the modelled maps -/

theorem cache_exists_fst (c : cache) (ip : String) (touch : Bool) (now : Int) :
    (c.exists ip touch now).1 = c.present ip := by
  unfold cache.exists cache.present
  cases c.get ip <;> cases touch <;> simp

theorem cache_exists_absent (c : cache) (ip : String) (touch : Bool) (now : Int)
    (h : c.present ip = false) : c.exists ip touch now = (false, c) := by
  unfold cache.present at h
  unfold cache.exists
  cases hg : c.get ip with
  | none => rfl
  | some x => simp [hg] at h

theorem cache_exists_untouched (c : cache) (ip : String) (now : Int) :
    (c.exists ip false now).2 = c := by
  unfold cache.exists
  cases c.get ip <;> simp

theorem cache_get_add (c : cache) (e : cacheEntry) : (c.add e).get e.IP = some e := by
  simp [cache.add, cache.get]

theorem db_get_add (d : db) (e : cacheEntry) : (d.add e).get e.IP = some e := by
  simp [db.add, db.get]

theorem cache_get_touched (c : cache) (ip : String) (now : Int) :
    (c.exists ip true now).2.get ip = (c.get ip).map (fun x => { x with TS := now }) := by
  unfold cache.exists
  cases hg : c.get ip with
  | none => simp [hg]
  | some x =>
    simp only [if_true, Option.map_some']
    unfold cache.get at hg ⊢
    simp only [List.find?_map]
    have hp : ((fun x : cacheEntry => x.IP == ip) ∘
        fun x : cacheEntry => if (x.IP == ip) = true then { x with TS := now } else x) =
        fun x : cacheEntry => x.IP == ip := by
      funext y
      by_cases hy : y.IP = ip <;> simp [hy]
    rw [hp, hg]
    have hxi : x.IP = ip := by simpa using List.find?_some hg
    simp [hxi]

theorem addEntry_absent_fields (w : World) (e : cacheEntry) (touch : Bool) (tnow : Int)
    (h : w.ipCache.present e.IP = false) :
    (addEntry w e touch tnow).2.ipCache = w.ipCache.add e ∧
    (addEntry w e touch tnow).2.bgp = w.bgp.addHost e.IP := by
  have hx := cache_exists_absent w.ipCache e.IP touch tnow h
  cases hdb : w.ipDB <;> simp [addEntry, ipDBPut, hx, hdb]

theorem addEntry_present_fields (w : World) (e : cacheEntry) (touch : Bool) (tnow : Int)
    (h : w.ipCache.present e.IP = true) :
    (addEntry w e touch tnow).2.ipCache = (w.ipCache.exists e.IP touch tnow).2 ∧
    (addEntry w e touch tnow).2.bgp = w.bgp := by
  have hx := cache_exists_fst w.ipCache e.IP touch tnow
  rw [h] at hx
  cases touch <;> cases hdb : w.ipDB <;> simp [addEntry, ipDBPut, hx, hdb]

/-! ## The callbacks -/

/-- C1: an observation whose domain the domain tree does not match leaves the
whole state as it was: no cache query, no cache add, no announce, no store
write and no broadcast is performed. -/
theorem addHostCb_unmatched_noop (w : World) (ip domain : String) (now tnow : Int)
    (h : w.dTree.has domain = false) : addHostCb w ip domain now tnow = w := by
  simp [addHostCb, h]

theorem addHostCb_unmatched_noop_witness :
    sampleWorld.dTree.has "evilexample.com" = false ∧
      addHostCb sampleWorld "9.9.9.9" "evilexample.com" 50 51 = sampleWorld :=
  ⟨by decide, addHostCb_unmatched_noop sampleWorld "9.9.9.9" "evilexample.com" 50 51 (by decide)⟩

/-- C2: when `e.IP` is absent from the cache, `addEntry` returns true for either
origin; after the cache query it makes exactly the calls `bgp.addHost(e.IP)`,
`ipCache.add(e)` and, when a store is configured, one `ipDB.add(e)` (none
otherwise); the route set, the cache and the store change accordingly and
`e.IP` is present in the cache afterwards, holding `e`. -/
theorem addEntry_absent_added (w : World) (e : cacheEntry) (touch : Bool) (tnow : Int)
    (h : w.ipCache.present e.IP = false) :
    (addEntry w e touch tnow).1 = true ∧
    (addEntry w e touch tnow).2.calls =
      w.calls ++ [Call.cacheExists e.IP touch, Call.bgpAddHost e.IP, Call.cacheAdd e] ++
        (if w.ipDB.isSome then [Call.dbAdd e] else []) ∧
    (addEntry w e touch tnow).2.bgp = w.bgp.addHost e.IP ∧
    (addEntry w e touch tnow).2.ipCache = w.ipCache.add e ∧
    (addEntry w e touch tnow).2.ipDB = w.ipDB.map (fun d => d.add e) ∧
    (addEntry w e touch tnow).2.syncer = w.syncer ∧
    (addEntry w e touch tnow).2.ipCache.present e.IP = true ∧
    (addEntry w e touch tnow).2.ipCache.get e.IP = some e := by
  have hx := cache_exists_absent w.ipCache e.IP touch tnow h
  cases hdb : w.ipDB <;>
    simp [addEntry, ipDBPut, hx, hdb, cache.present, cache_get_add]

theorem addEntry_absent_added_witness :
    sampleWorld.ipCache.present sampleFresh.IP = false ∧
    (addEntry sampleWorld sampleFresh false 60).1 = true ∧
    (addEntry sampleWorld sampleFresh false 60).2.calls =
      sampleWorld.calls ++
        [Call.cacheExists sampleFresh.IP false, Call.bgpAddHost sampleFresh.IP,
          Call.cacheAdd sampleFresh] ++
        (if sampleWorld.ipDB.isSome then [Call.dbAdd sampleFresh] else []) ∧
    (addEntry sampleWorld sampleFresh false 60).2.ipCache.present sampleFresh.IP = true :=
  have h := addEntry_absent_added sampleWorld sampleFresh false 60 (by decide)
  ⟨by decide, h.1, h.2.1, h.2.2.2.2.2.2.1⟩

/-- C3: when `e.IP` is already present, `addEntry` returns false, announces
nothing and never calls `ipCache.add`.  With remote origin the only call is
`exists(e.IP, false)` and cache, routes, store and syncer are all unchanged.
With local origin the call is `exists(e.IP, true)`, which touches the entry
(its timestamp becomes the time of the touch), followed by one `ipDB.add(e)`
when a store is configured. -/
theorem addEntry_present_not_added (w : World) (e : cacheEntry) (touch : Bool) (tnow : Int)
    (h : w.ipCache.present e.IP = true) :
    (addEntry w e touch tnow).1 = false ∧
    (addEntry w e touch tnow).2.calls =
      w.calls ++ [Call.cacheExists e.IP touch] ++
        (if touch && w.ipDB.isSome then [Call.dbAdd e] else []) ∧
    (addEntry w e touch tnow).2.bgp = w.bgp ∧
    (addEntry w e touch tnow).2.syncer = w.syncer ∧
    (touch = false →
      (addEntry w e touch tnow).2.ipCache = w.ipCache ∧
      (addEntry w e touch tnow).2.ipDB = w.ipDB) ∧
    (touch = true →
      (addEntry w e touch tnow).2.ipCache = (w.ipCache.exists e.IP true tnow).2 ∧
      ((addEntry w e touch tnow).2.ipCache.get e.IP).map (fun x => x.TS) = some tnow ∧
      (addEntry w e touch tnow).2.ipDB = w.ipDB.map (fun d => d.add e)) := by
  have hx := cache_exists_fst w.ipCache e.IP touch tnow
  rw [h] at hx
  have hu := cache_exists_untouched w.ipCache e.IP tnow
  have ht := cache_get_touched w.ipCache e.IP tnow
  cases touch <;> cases hdb : w.ipDB <;>
    simp_all [addEntry, ipDBPut, cache.present, Option.isSome_iff_exists]

theorem addEntry_present_not_added_witness :
    sampleWorld.ipCache.present sampleRefresh.IP = true ∧
    (addEntry sampleWorld sampleRefresh false 60).1 = false ∧
    (addEntry sampleWorld sampleRefresh false 60).2.calls =
      sampleWorld.calls ++ [Call.cacheExists sampleRefresh.IP false] ++
        (if false && sampleWorld.ipDB.isSome then [Call.dbAdd sampleRefresh] else []) ∧
    (addEntry sampleWorld sampleRefresh false 60).2.ipCache = sampleWorld.ipCache ∧
    (addEntry sampleWorld sampleRefresh false 60).2.ipDB = sampleWorld.ipDB :=
  have h := addEntry_present_not_added sampleWorld sampleRefresh false 60 (by decide)
  ⟨by decide, h.1, h.2.1, (h.2.2.2.2.1 rfl).1, (h.2.2.2.2.1 rfl).2⟩

/-- C4 fails as stated.  In `sampleWorld` the IP `1.2.3.4` is cached under
`a.example.com`; after the local re-observation `sampleRefresh` (domain
`x.bad.example`, timestamp 50, touched at time 60) the cached entry still
carries `a.example.com` with timestamp 60, while the store holds
`x.bad.example` with timestamp 50. -/
theorem addEntry_refresh_counterexample :
    sampleWorld.ipCache.get "1.2.3.4" =
      some { IP := "1.2.3.4", Domain := "a.example.com", TS := 10 } ∧
    (addEntry sampleWorld sampleRefresh true 60).2.ipCache.get "1.2.3.4" =
      some { IP := "1.2.3.4", Domain := "a.example.com", TS := 60 } ∧
    (addEntry sampleWorld sampleRefresh true 60).2.ipDB.bind (fun d => d.get "1.2.3.4") =
      some { IP := "1.2.3.4", Domain := "x.bad.example", TS := 50 } ∧
    ¬ (∀ (w : World) (e : cacheEntry) (tnow : Int), w.ipCache.present e.IP = true →
        ((addEntry w e true tnow).2.ipCache.get e.IP).map (fun x => x.Domain) =
          some e.Domain) := by
  refine ⟨by decide, by decide, by decide, ?_⟩
  intro h
  have h1 := h sampleWorld sampleRefresh 60 (by decide)
  revert h1
  decide

/-- C4, amended: a local re-observation `addEntry(e, true)` of an IP cached as
`old` returns false and leaves the cached entry with the domain of `old`; only
its timestamp changes, to the time of the touch.  The resulting cache is the
same for every entry carrying that IP, whatever its domain and timestamp.  The
store, when configured, afterwards holds `e` itself under that IP. -/
theorem addEntry_refresh_keeps_domain (w : World) (e old : cacheEntry) (tnow : Int)
    (h : w.ipCache.get e.IP = some old) :
    (addEntry w e true tnow).1 = false ∧
    (addEntry w e true tnow).2.ipCache.get e.IP =
      some { IP := e.IP, Domain := old.Domain, TS := tnow } ∧
    (∀ e2 : cacheEntry, e2.IP = e.IP →
      (addEntry w e2 true tnow).2.ipCache = (addEntry w e true tnow).2.ipCache) ∧
    (addEntry w e true tnow).2.ipDB = w.ipDB.map (fun d => d.add e) ∧
    (∀ d : db, w.ipDB = some d →
      (addEntry w e true tnow).2.ipDB.bind (fun x => x.get e.IP) = some e) := by
  have hold : old.IP = e.IP := by
    have := List.find?_some h
    simpa using this
  have hp : w.ipCache.present e.IP = true := by simp [cache.present, h]
  have hx := cache_exists_fst w.ipCache e.IP true tnow
  rw [hp] at hx
  have ht := cache_get_touched w.ipCache e.IP tnow
  rw [h] at ht
  have hc : ∀ e2 : cacheEntry, e2.IP = e.IP →
      (addEntry w e2 true tnow).2.ipCache = (w.ipCache.exists e.IP true tnow).2 := by
    intro e2 h2
    cases hdb : w.ipDB <;> simp [addEntry, ipDBPut, h2, hx, hdb]
  refine ⟨?_, ?_, ?_, ?_, ?_⟩
  · simp [addEntry, hx]
  · rw [hc e rfl, ht]; simp [hold]
  · intro e2 h2; rw [hc e2 h2, hc e rfl]
  · cases hdb : w.ipDB <;> simp [addEntry, ipDBPut, hx, hdb]
  · intro d hd
    simp [addEntry, ipDBPut, hx, hd, db_get_add]

theorem addEntry_refresh_keeps_domain_witness :
    sampleWorld.ipCache.get sampleRefresh.IP =
      some { IP := "1.2.3.4", Domain := "a.example.com", TS := 10 } ∧
    (addEntry sampleWorld sampleRefresh true 60).2.ipCache.get sampleRefresh.IP =
      some { IP := "1.2.3.4", Domain := "a.example.com", TS := 60 } ∧
    (addEntry sampleWorld sampleRefresh true 60).2.ipDB =
      sampleWorld.ipDB.map (fun d => d.add sampleRefresh) :=
  have h := addEntry_refresh_keeps_domain sampleWorld sampleRefresh
    { IP := "1.2.3.4", Domain := "a.example.com", TS := 10 } 60 (by decide)
  ⟨by decide, h.2.1, h.2.2.2.1⟩

theorem addEntry_no_broadcast (w : World) (e : cacheEntry) (touch : Bool) (tnow : Int) :
    broadcasts (addEntry w e touch tnow).2.calls = broadcasts w.calls ∧
    (addEntry w e touch tnow).2.syncer = w.syncer ∧
    (addEntry w e touch tnow).2.dTree = w.dTree := by
  cases hx : (w.ipCache.exists e.IP touch tnow).1 <;> cases touch <;> cases hdb : w.ipDB <;>
    simp [addEntry, ipDBPut, hx, hdb, broadcasts, List.filterMap_append]

/-- C5: with a syncer configured, `addHostCb` hands the observed entry to
`syncer.broadcast` exactly once when the domain matches and not at all when it
does not, whatever the cache held before (so whether `addEntry` added or
refreshed); `addEntry` itself makes no broadcast call and leaves the syncer as
it was, for every entry, origin and cache state. -/
theorem broadcast_iff_local_match (w : World) (s : syncer) (ip domain : String) (now tnow : Int)
    (hs : w.syncer = some s) :
    broadcasts (addHostCb w ip domain now tnow).calls =
      broadcasts w.calls ++
        (if w.dTree.has domain then [{ IP := ip, Domain := domain, TS := now }] else []) ∧
    (addHostCb w ip domain now tnow).syncer =
      some (if w.dTree.has domain then s.broadcast { IP := ip, Domain := domain, TS := now }
        else s) ∧
    (∀ (e : cacheEntry) (touch : Bool) (t : Int),
      broadcasts (addEntry w e touch t).2.calls = broadcasts w.calls ∧
      (addEntry w e touch t).2.syncer = w.syncer) := by
  refine ⟨?_, ?_, fun e touch t => ⟨(addEntry_no_broadcast w e touch t).1,
    (addEntry_no_broadcast w e touch t).2.1⟩⟩
  · cases hd : w.dTree.has domain
    · simp [addHostCb, hd]
    · have hb := addEntry_no_broadcast w { IP := ip, Domain := domain, TS := now } true tnow
      have hsy : (addEntry w { IP := ip, Domain := domain, TS := now } true tnow).2.syncer =
          some s := by rw [hb.2.1, hs]
      simp [addHostCb, hd, hsy, broadcasts, List.filterMap_append]
      simpa [broadcasts] using hb.1
  · cases hd : w.dTree.has domain
    · simp [addHostCb, hd, hs]
    · have hb := addEntry_no_broadcast w { IP := ip, Domain := domain, TS := now } true tnow
      have hsy : (addEntry w { IP := ip, Domain := domain, TS := now } true tnow).2.syncer =
          some s := by rw [hb.2.1, hs]
      simp [addHostCb, hd, hsy]

theorem broadcast_iff_local_match_witness :
    sampleWorld.syncer = some { sent := [] } ∧
    broadcasts (addHostCb sampleWorld "1.2.3.4" "x.bad.example" 50 60).calls =
      [{ IP := "1.2.3.4", Domain := "x.bad.example", TS := 50 }] ∧
    broadcasts (addHostCb sampleWorld "5.6.7.8" "x.bad.example" 50 60).calls =
      [{ IP := "5.6.7.8", Domain := "x.bad.example", TS := 50 }] ∧
    broadcasts (addHostCb sampleWorld "5.6.7.8" "evilexample.com" 50 60).calls = [] :=
  ⟨rfl,
    (broadcast_iff_local_match sampleWorld { sent := [] } "1.2.3.4" "x.bad.example" 50 60 rfl).1,
    (broadcast_iff_local_match sampleWorld { sent := [] } "5.6.7.8" "x.bad.example" 50 60 rfl).1,
    (broadcast_iff_local_match sampleWorld { sent := [] } "5.6.7.8" "evilexample.com" 50 60 rfl).1⟩

/-- C8: the expiry callback makes exactly the call `bgp.delHost(e.IP)`,
followed by exactly one `ipDB.del(e.IP)` when a store is configured and by
nothing when `ipDB` is nil; the route is withdrawn, the IP is deleted from the
store, and cache, syncer and domain tree are left alone (no announce, no cache
add, no store put, no broadcast). -/
theorem expireCb_effects (w : World) (e : cacheEntry) :
    (expireCb w e).calls =
      w.calls ++ [Call.bgpDelHost e.IP] ++ (if w.ipDB.isSome then [Call.dbDel e.IP] else []) ∧
    (expireCb w e).bgp = w.bgp.delHost e.IP ∧
    (expireCb w e).ipDB = w.ipDB.map (fun d => d.del e.IP) ∧
    (expireCb w e).ipCache = w.ipCache ∧
    (expireCb w e).syncer = w.syncer ∧
    (expireCb w e).dTree = w.dTree := by
  cases hdb : w.ipDB <;> simp [expireCb, hdb]

/-! ## The startup restore -/

theorem restoreStep_fresh (dTree : domainTree) (ttl now : Int) (s : RestoreState)
    (e : cacheEntry) (h : fresh dTree ttl now e = true) :
    restoreStep dTree ttl now s e =
      { s with ipCache := s.ipCache.add e, i := s.i + 1, calls := s.calls ++ [Call.cacheAdd e] } := by
  simp only [fresh, Bool.and_eq_true, decide_eq_true_eq] at h
  have h1 : ¬ Time.Sub now e.TS ≥ ttl := not_le.mpr h.1
  simp [restoreStep, h1, h.2]

theorem restoreStep_expired (dTree : domainTree) (ttl now : Int) (s : RestoreState)
    (e : cacheEntry) (h : Time.Sub now e.TS ≥ ttl) :
    restoreStep dTree ttl now s e =
      { s with ipDB := s.ipDB.del e.IP, j := s.j + 1, calls := s.calls ++ [Call.dbDel e.IP] } := by
  simp [restoreStep, h]

theorem restoreStep_vanished (dTree : domainTree) (ttl now : Int) (s : RestoreState)
    (e : cacheEntry) (h1 : Time.Sub now e.TS < ttl) (h2 : dTree.has e.Domain = false) :
    restoreStep dTree ttl now s e =
      { s with ipDB := s.ipDB.del e.IP, k := s.k + 1, calls := s.calls ++ [Call.dbDel e.IP] } := by
  have h : ¬ Time.Sub now e.TS ≥ ttl := not_le.mpr h1
  simp [restoreStep, h, h2]

/-- The restore loop started from any state: what it adds to each loop
variable. -/
theorem foldl_restoreStep (dTree : domainTree) (ttl now : Int) (es : List cacheEntry) :
    ∀ s : RestoreState,
    (es.foldl (restoreStep dTree ttl now) s).calls =
      s.calls ++ es.map (fun e =>
        if fresh dTree ttl now e then Call.cacheAdd e else Call.dbDel e.IP) ∧
    (es.foldl (restoreStep dTree ttl now) s).ipCache =
      (es.filter (fresh dTree ttl now)).foldl cache.add s.ipCache ∧
    (es.foldl (restoreStep dTree ttl now) s).ipDB =
      (es.filter (fun e => !fresh dTree ttl now e)).foldl (fun d e => d.del e.IP) s.ipDB ∧
    (es.foldl (restoreStep dTree ttl now) s).i = s.i + es.countP (fresh dTree ttl now) ∧
    (es.foldl (restoreStep dTree ttl now) s).j =
      s.j + es.countP (fun e => decide (ttl ≤ Time.Sub now e.TS)) ∧
    (es.foldl (restoreStep dTree ttl now) s).k =
      s.k + es.countP (fun e =>
        decide (Time.Sub now e.TS < ttl) && !dTree.has e.Domain) := by
  induction es with
  | nil => intro s; simp
  | cons e es ih =>
    intro s
    rw [List.foldl_cons]
    obtain ⟨hc, hca, hdb, hi, hj, hk⟩ := ih (restoreStep dTree ttl now s e)
    rw [hc, hca, hdb, hi, hj, hk]
    by_cases hexp : Time.Sub now e.TS ≥ ttl
    · have hlt : ¬ Time.Sub now e.TS < ttl := not_lt.mpr hexp
      have hf : fresh dTree ttl now e = false := by simp [fresh, hlt]
      rw [restoreStep_expired dTree ttl now s e hexp]
      simp [hf, hexp, hlt, List.countP_cons]
      all_goals omega
    · have hlt : Time.Sub now e.TS < ttl := not_le.mp hexp
      cases hd : dTree.has e.Domain
      · have hf : fresh dTree ttl now e = false := by simp [fresh, hd]
        rw [restoreStep_vanished dTree ttl now s e hlt hd]
        simp [hf, hexp, hlt, hd, List.countP_cons]
        all_goals omega
      · have hf : fresh dTree ttl now e = true := by simp [fresh, hd, hlt]
        rw [restoreStep_fresh dTree ttl now s e hf]
        simp [hf, hexp, hlt, hd, List.countP_cons]
        all_goals omega

/-- Every stored entry falls in exactly one of the three classes counted by the
restore loop. -/
theorem countP_three_way (dTree : domainTree) (ttl now : Int) (es : List cacheEntry) :
    es.countP (fresh dTree ttl now) +
      es.countP (fun e => decide (ttl ≤ Time.Sub now e.TS)) +
      es.countP (fun e => decide (Time.Sub now e.TS < ttl) && !dTree.has e.Domain) =
    es.length := by
  induction es with
  | nil => simp
  | cons e es ih =>
    simp only [List.countP_cons, List.length_cons]
    by_cases hexp : Time.Sub now e.TS ≥ ttl
    · have hlt : ¬ Time.Sub now e.TS < ttl := not_lt.mpr hexp
      simp [fresh, hexp, hlt]
      omega
    · have hlt : Time.Sub now e.TS < ttl := not_le.mp hexp
      cases hd : dTree.has e.Domain <;> simp [fresh, hexp, hlt, hd] <;> omega

/-- C6: the restore loop makes exactly one call per stored entry, in order:
`ipCache.add(e)` when `now.Sub(e.TS) < ttl` and the domain is matched,
`ipDB.del(e.IP)` otherwise; an entry is seeded iff it is such a fresh entry of
the list; `j` counts every entry whose age is at least the TTL, matched or not,
`k` only the unmatched ones among the rest, `i` the seeded ones, and
`i + j + k = len(es)`. -/
theorem restore_classifies (dTree : domainTree) (ttl now : Int) (c : cache) (d : db)
    (es : List cacheEntry) :
    (restore dTree ttl now c d es).calls =
      es.map (fun e =>
        if Time.Sub now e.TS < ttl ∧ dTree.has e.Domain = true then Call.cacheAdd e
        else Call.dbDel e.IP) ∧
    (∀ e : cacheEntry, Call.cacheAdd e ∈ (restore dTree ttl now c d es).calls ↔
      e ∈ es ∧ Time.Sub now e.TS < ttl ∧ dTree.has e.Domain = true) ∧
    (restore dTree ttl now c d es).ipCache =
      (es.filter (fun e => decide (Time.Sub now e.TS < ttl) && dTree.has e.Domain)).foldl
        cache.add c ∧
    (restore dTree ttl now c d es).ipDB =
      (es.filter (fun e => !(decide (Time.Sub now e.TS < ttl) && dTree.has e.Domain))).foldl
        (fun d e => d.del e.IP) d ∧
    (restore dTree ttl now c d es).i =
      es.countP (fun e => decide (Time.Sub now e.TS < ttl) && dTree.has e.Domain) ∧
    (restore dTree ttl now c d es).j = es.countP (fun e => decide (ttl ≤ Time.Sub now e.TS)) ∧
    (restore dTree ttl now c d es).k =
      es.countP (fun e => decide (Time.Sub now e.TS < ttl) && !dTree.has e.Domain) ∧
    (restore dTree ttl now c d es).i + (restore dTree ttl now c d es).j +
      (restore dTree ttl now c d es).k = es.length := by
  obtain ⟨hc, hca, hdb, hi, hj, hk⟩ := foldl_restoreStep dTree ttl now es
    { ipCache := c, ipDB := d, i := 0, j := 0, k := 0, calls := [] }
  have hcalls : (restore dTree ttl now c d es).calls =
      es.map (fun e =>
        if Time.Sub now e.TS < ttl ∧ dTree.has e.Domain = true then Call.cacheAdd e
        else Call.dbDel e.IP) := by
    unfold restore
    rw [hc]
    simp [fresh]
  refine ⟨hcalls, ?_, ?_, ?_, ?_, ?_, ?_, ?_⟩
  · intro e
    rw [hcalls, List.mem_map]
    constructor
    · rintro ⟨x, hx, hxe⟩
      by_cases hf : Time.Sub now x.TS < ttl ∧ dTree.has x.Domain = true
      · rw [if_pos hf] at hxe
        cases hxe
        exact ⟨hx, hf⟩
      · rw [if_neg hf] at hxe
        cases hxe
    · rintro ⟨he, hf⟩
      exact ⟨e, he, by rw [if_pos hf]⟩
  · unfold restore; rw [hca]; rfl
  · unfold restore; rw [hdb]; rfl
  · unfold restore; rw [hi]; simp; rfl
  · unfold restore; rw [hj]; simp
  · unfold restore; rw [hk]; simp
  · unfold restore
    rw [hi, hj, hk]
    have := countP_three_way dTree ttl now es
    simp only [Nat.zero_add]
    exact this

/-! ## TTL selection -/

theorem Time_Sub_nonneg (t u : Int) : 0 ≤ Time.Sub t u ↔ u ≤ t := by
  unfold Time.Sub minDuration maxDuration
  split_ifs <;> omega

/-- C9: an empty `cfg.TTL` gives 24 hours; a non-empty one gives whatever
`time.ParseDuration` returned, so the parsed duration when it parses; and when
it returns the zero duration together with an error the TTL is zero, the
startup goes on as it would for a TTL of zero, and the restore loop then counts
as expired, and deletes from the store, every entry whose timestamp is not
later than `now`. -/
theorem selectTTL_cases (env : Env) (cfg : cfgRoot) :
    (cfg.TTL = "" → selectTTL env cfg = 24 * Hour) ∧
    (cfg.TTL ≠ "" → selectTTL env cfg = (env.ParseDuration cfg.TTL).1) ∧
    (∀ err : String, cfg.TTL ≠ "" → env.ParseDuration cfg.TTL = (0, some err) →
      selectTTL env cfg = 0 ∧
      (cfg.Domains ≠ "" → startup env cfg = startupFrom env cfg 0) ∧
      (∀ (dTree : domainTree) (s : RestoreState) (e : cacheEntry), e.TS ≤ env.now →
        restoreStep dTree (selectTTL env cfg) env.now s e =
          { s with ipDB := s.ipDB.del e.IP, j := s.j + 1,
                   calls := s.calls ++ [Call.dbDel e.IP] }) ∧
      (∀ (dTree : domainTree) (c : cache) (d : db) (es : List cacheEntry),
        (restore dTree (selectTTL env cfg) env.now c d es).j =
          es.countP (fun e => decide (e.TS ≤ env.now)))) := by
  refine ⟨fun h => by simp [selectTTL, h], fun h => by simp [selectTTL, h], ?_⟩
  intro err hne hpd
  have hz : selectTTL env cfg = 0 := by simp [selectTTL, hne, hpd]
  refine ⟨hz, ?_, ?_, ?_⟩
  · intro hd
    simp [startup, hd, hz]
  · intro dTree s e he
    rw [hz]
    exact restoreStep_expired dTree 0 env.now s e ((Time_Sub_nonneg env.now e.TS).mpr he)
  · intro dTree c d es
    rw [hz]
    unfold restore
    rw [(foldl_restoreStep dTree 0 env.now es _).2.2.2.2.1]
    simp [Time_Sub_nonneg]

theorem selectTTL_cases_witness :
    badTTLCfg.TTL ≠ "" ∧
    sampleEnv.ParseDuration badTTLCfg.TTL = (0, some "time: invalid duration") ∧
    selectTTL sampleEnv badTTLCfg = 0 ∧
    startup sampleEnv badTTLCfg = startupFrom sampleEnv badTTLCfg 0 ∧
    (∃ w : World, startup sampleEnv badTTLCfg = .ok w ∧ w.ipCache.m = [] ∧
      w.calls = [Call.dbDel "1.2.3.4"]) ∧
    selectTTL sampleEnv sampleCfg = 24 * Hour ∧
    selectTTL sampleEnv { sampleCfg with TTL := "1h" } = Hour :=
  have h := (selectTTL_cases sampleEnv badTTLCfg).2.2 "time: invalid duration"
    (by decide) (by decide)
  ⟨by decide, by decide, h.1, h.2.1 (by decide),
    ⟨{ dTree := sampleTree, ipCache := { m := [], ttl := 0 }, bgp := { routes := [] },
       ipDB := some { m := [] }, syncer := none, calls := [Call.dbDel "1.2.3.4"] },
      rfl, rfl, rfl⟩,
    (selectTTL_cases sampleEnv sampleCfg).1 (by decide),
    (selectTTL_cases sampleEnv { sampleCfg with TTL := "1h" }).2.1 (by decide)⟩

/-! ## Cache and routes -/

theorem cache_present_iff (c : cache) (ip : String) :
    c.present ip = true ↔ ∃ x ∈ c.m, x.IP = ip := by
  simp [cache.present, cache.get, List.find?_isSome]

theorem cache_present_add (c : cache) (e : cacheEntry) (ip : String) :
    (c.add e).present ip = true ↔ ip = e.IP ∨ c.present ip = true := by
  rw [cache_present_iff, cache_present_iff]
  simp only [cache.add, List.mem_cons, List.mem_filter, bne_iff_ne, ne_eq]
  constructor
  · rintro ⟨x, hx | ⟨hx, _⟩, rfl⟩
    · exact Or.inl (by rw [hx])
    · exact Or.inr ⟨x, hx, rfl⟩
  · rintro (h | ⟨x, hx, rfl⟩)
    · exact ⟨e, Or.inl rfl, h.symm⟩
    · by_cases hxe : x.IP = e.IP
      · exact ⟨e, Or.inl rfl, hxe.symm⟩
      · exact ⟨x, Or.inr ⟨hx, hxe⟩, rfl⟩

theorem cache_present_remove (c : cache) (ip ip2 : String) :
    (c.remove ip).present ip2 = true ↔ ip2 ≠ ip ∧ c.present ip2 = true := by
  rw [cache_present_iff, cache_present_iff]
  simp only [cache.remove, List.mem_filter, bne_iff_ne, ne_eq]
  constructor
  · rintro ⟨x, ⟨hx, hne⟩, rfl⟩
    exact ⟨hne, x, hx, rfl⟩
  · rintro ⟨hne, x, hx, rfl⟩
    exact ⟨x, ⟨hx, hne⟩, rfl⟩

theorem cache_present_exists (c : cache) (ip : String) (touch : Bool) (now : Int)
    (ip2 : String) : (c.exists ip touch now).2.present ip2 = c.present ip2 := by
  unfold cache.exists
  cases hg : c.get ip with
  | none => rfl
  | some x =>
    cases touch
    · rfl
    · simp only [if_true]
      rw [Bool.eq_iff_iff, cache_present_iff, cache_present_iff]
      simp only [List.mem_map]
      constructor
      · rintro ⟨y, ⟨z, hz, rfl⟩, hy⟩
        refine ⟨z, hz, ?_⟩
        rw [← hy]
        split <;> rfl
      · rintro ⟨z, hz, rfl⟩
        refine ⟨_, ⟨z, hz, rfl⟩, ?_⟩
        split <;> rfl

theorem mem_addHost (b : bgpServer) (ip ip2 : String) :
    ip2 ∈ (b.addHost ip).routes ↔ ip2 = ip ∨ ip2 ∈ b.routes := by
  unfold bgpServer.addHost
  split
  · constructor
    · exact Or.inr
    · rintro (rfl | h)
      · assumption
      · exact h
  · simp

theorem mem_delHost (b : bgpServer) (ip ip2 : String) :
    ip2 ∈ (b.delHost ip).routes ↔ ip2 ≠ ip ∧ ip2 ∈ b.routes := by
  simp [bgpServer.delHost, and_comm]

/-- The pairing made by `addEntry`: it keeps cache and announced routes in
step. -/
theorem addEntry_keeps_tracking (w : World) (e : cacheEntry) (touch : Bool) (tnow : Int)
    (h : Tracks w) : Tracks (addEntry w e touch tnow).2 := by
  intro ip
  cases hp : w.ipCache.present e.IP
  · have ha := addEntry_absent_fields w e touch tnow hp
    rw [ha.1, ha.2, cache_present_add, mem_addHost, h ip]
  · have ha := addEntry_present_fields w e touch tnow hp
    rw [ha.1, ha.2, cache_present_exists, h ip]

/-- The pairing made by the expiry path: removal from the cache comes with the
withdrawal of the route. -/
theorem expire_keeps_tracking (w : World) (e : cacheEntry) (h : Tracks w) :
    Tracks (expire w e) := by
  intro ip
  have hc : (expire w e).ipCache = w.ipCache.remove e.IP := by
    cases hdb : w.ipDB <;> simp [expire, expireCb, hdb]
  have hb : (expire w e).bgp = w.bgp.delHost e.IP := by
    cases hdb : w.ipDB <;> simp [expire, expireCb, hdb]
  rw [hc, hb, cache_present_remove, mem_delHost, h ip]

/-! ## The startup sequence -/

theorem restore_announces_nothing (dTree : domainTree) (ttl now : Int) (c : cache) (d : db)
    (es : List cacheEntry) : announces (restore dTree ttl now c d es).calls = [] := by
  unfold restore
  rw [(foldl_restoreStep dTree ttl now es _).1]
  simp only [announces, List.nil_append, List.filterMap_map, List.filterMap_eq_nil_iff]
  intro e _
  simp only [Function.comp]
  by_cases hf : fresh dTree ttl now e = true <;> simp [hf]

theorem loadCache_announces_nothing (env : Env) (cfg : cfgRoot) (dTree : domainTree)
    (ttl : Int) (c : cache) (r : cache × Option db × List Call)
    (h : loadCache env cfg dTree ttl c = .ok r) : announces r.2.2 = [] := by
  unfold loadCache at h
  split at h
  · split at h
    · cases h
    · simp only [db.fetchAll] at h
      cases h
      exact restore_announces_nothing _ _ _ _ _ _
  · cases h
    rfl

/-- Whatever the store holds, a completed startup has called `bgp.addHost` for
no IP, and the route controller is the one `newBgp` returned. -/
theorem startup_announces_nothing (env : Env) (cfg : cfgRoot) (w : World)
    (h : startup env cfg = .ok w) :
    announces w.calls = [] ∧ env.newBgp cfg.BGP = .ok w.bgp := by
  unfold startup at h
  split at h
  · cases h
  · unfold startupFrom at h
    split at h
    · cases h
    · split at h
      · cases h
      · split at h
        · cases h
        · rename_i hl
          split at h
          · cases h
          · rename_i hb
            split at h
            · cases h
            · split at h
              · cases h
              · cases h
                exact ⟨loadCache_announces_nothing _ _ _ _ _ _ hl, hb⟩

theorem initSyncer_nil (env : Env) (cfg : cfgRoot) (h : cfg.Syncer = none) :
    initSyncer env cfg = .error Abort.nilDeref := by
  simp [initSyncer, h]

/-- With a syncer section present, a syncer is created iff a listen address is
set or a peer is configured. -/
theorem initSyncer_section (env : Env) (cfg : cfgRoot) (sc : syncerCfg) (s : syncer)
    (h : cfg.Syncer = some sc) (hn : env.newSyncer sc = .ok s) :
    initSyncer env cfg = .ok (if sc.Listen ≠ "" ∨ sc.Peers ≠ [] then some s else none) := by
  by_cases h1 : sc.Listen = "" <;> by_cases h2 : sc.Peers = [] <;>
    simp [initSyncer, h, hn, h1, h2, List.length_pos]

/-- A configuration without a syncer section never completes the startup. -/
theorem startup_nil_syncer_never_ok (env : Env) (cfg : cfgRoot) (h : cfg.Syncer = none)
    (w : World) : startup env cfg ≠ .ok w := by
  intro hs
  unfold startup at hs
  split at hs
  · cases hs
  · unfold startupFrom at hs
    rw [initSyncer_nil env cfg h] at hs
    split at hs
    · cases hs
    · split at hs
      · cases hs
      · split at hs
        · cases hs
        · split at hs
          · cases hs
          · cases hs

/-- C7, evaluated: with a store holding the fresh, matched entry
`(1.2.3.4, x.bad.example)`, the startup completes with `1.2.3.4` in the cache,
no `bgp.addHost` call made and no route announced; a later local observation of
the same IP finds it present and announces nothing either. -/
theorem startup_seeds_without_announce :
    startup sampleEnv sampleCfg = .ok sampleStarted ∧
    sampleStarted.ipCache.present "1.2.3.4" = true ∧
    announces sampleStarted.calls = [] ∧
    sampleStarted.bgp.routes = [] ∧
    ¬ Tracks sampleStarted ∧
    (addHostCb sampleStarted "1.2.3.4" "x.bad.example" 200 201).ipCache.present "1.2.3.4" = true ∧
    announces (addHostCb sampleStarted "1.2.3.4" "x.bad.example" 200 201).calls = [] ∧
    (addHostCb sampleStarted "1.2.3.4" "x.bad.example" 200 201).bgp.routes = [] := by
  refine ⟨rfl, by decide, by decide, rfl, ?_, by decide, by decide, by decide⟩
  intro h
  have h1 := (h "1.2.3.4").mp (by decide)
  revert h1
  decide

/-- C10, evaluated: for a configuration with a domain list and no syncer
section, in an environment where every external step succeeds, the startup
ends in the nil-pointer panic of `cfg.Syncer.Listen`; with an empty syncer
section it completes and `syncer` stays nil. -/
theorem startup_without_syncer_section_panics :
    noSyncerCfg.Domains ≠ "" ∧ noSyncerCfg.Syncer = none ∧
    startup sampleEnv noSyncerCfg = .error Abort.nilDeref ∧
    startup sampleEnv sampleCfg = .ok sampleStarted ∧ sampleStarted.syncer = none := by
  refine ⟨by decide, rfl, rfl, rfl, rfl⟩

end DnstapBgp
